import Mathlib

/-!
Verification of the payment/provisioning workflow of the price-alert-api
server (Express/JS). The definitions below are a shallow embedding of the
source handlers: the plan catalog and order creation (`/payment/create`),
the payment webhook (`/payment/webhook`), the status query
(`/payment/status/:orderId`), and the `validateApiKey` middleware, together
with the route table registered on the app. Amounts are modelled as
rationals; timestamps as integers (milliseconds); the in-memory `Map`
stores as association lists with JS `Map.set` semantics. The random order
id and API key produced by `crypto.randomBytes` enter as parameters.
-/

namespace PriceAlertApi

/-- Association-list store with the semantics of a JS `Map`: `storeSet`
replaces the value at an existing key and appends a fresh key;
`storeFind?` is `Map.get`. -/
def storeSet {α : Type} (s : List (String × α)) (k : String) (v : α) :
    List (String × α) :=
  match s with
  | [] => [(k, v)]
  | (k', v') :: rest =>
      if k' = k then (k, v) :: rest else (k', v') :: storeSet rest k v

def storeFind? {α : Type} (s : List (String × α)) (k : String) : Option α :=
  match s with
  | [] => none
  | (k', v) :: rest => if k' = k then some v else storeFind? rest k

theorem find_storeSet {α : Type} (s : List (String × α)) (k k' : String) (v : α) :
    storeFind? (storeSet s k v) k' = if k = k' then some v else storeFind? s k' := by
  induction s with
  | nil =>
      by_cases h : k = k' <;> simp [storeSet, storeFind?, h]
  | cons hd tl ih =>
      obtain ⟨k₀, v₀⟩ := hd
      by_cases h0 : k₀ = k
      · subst h0
        by_cases h : k₀ = k' <;> simp [storeSet, storeFind?, h]
      · by_cases h : k₀ = k'
        · subst h
          have hk : ¬k = k₀ := fun e => h0 e.symm
          simp [storeSet, storeFind?, h0, hk, ih]
        · simp [storeSet, storeFind?, h0, h, ih]

/-- Static plan catalog entry: `{ price, calls, name }` in the source. -/
structure Plan where
  name : String
  price : ℚ
  calls : Int
deriving DecidableEq, Repr

def basicPlan : Plan := ⟨"Basic", 5, 1000⟩

def proPlan : Plan := ⟨"Pro", 15, 10000⟩

def unlimitedPlan : Plan := ⟨"Unlimited", 50, 999999⟩

/-- Own properties of the `plans` object literal — the static catalog.
A bracket lookup `plans[plan]` also consults the prototype chain;
`plansGet` embeds the full lookup. -/
def plansCatalog (s : String) : Option Plan :=
  if s = "basic" then some basicPlan
  else if s = "pro" then some proPlan
  else if s = "unlimited" then some unlimitedPlan
  else none

/-- Property names an object literal inherits from `Object.prototype` in
Node (Annex B accessors included). Every inherited value is a function —
or `Object.prototype` itself for the dunder-proto accessor — hence
truthy. -/
def objectPrototypeMembers : List String :=
  [ "constructor", "hasOwnProperty", "isPrototypeOf", "propertyIsEnumerable"
  , "toLocaleString", "toString", "valueOf", "__proto__"
  , "__defineGetter__", "__defineSetter__", "__lookupGetter__", "__lookupSetter__" ]

/-- Result of the bracket lookup `plans[plan]` when it is defined: one of
the own plan entries, or a truthy member inherited from
`Object.prototype`. -/
inductive PlanLookup where
  | ownPlan (p : Plan)
  | inheritedMember (name : String)
deriving DecidableEq, Repr

/-- Embeds the bracket lookup `plans[plan]` : own properties shadow the
prototype chain; a name of an inherited `Object.prototype` member finds
that member; anything else is `undefined` (`none`). -/
def plansGet (s : String) : Option PlanLookup :=
  match plansCatalog s with
  | some p => some (.ownPlan p)
  | none =>
      if s ∈ objectPrototypeMembers then some (.inheritedMember s) else none

/-- Embeds `plans[plan] || plans.basic` : an absent selector or an
undefined lookup is falsy and falls back to the basic plan, while a
truthy inherited member is kept, defeating the fallback. -/
def selectedPlanJS (plan : Option String) : PlanLookup :=
  (plan.bind plansGet).getD (.ownPlan basicPlan)

/-- The plan `paymentCreate` proceeds with when the selector does not
name an inherited `Object.prototype` member: on that domain the lookup
agrees with `selectedPlanJS` (theorem `selectedPlanJS_eq_ownPlan`) and an
absent or unrecognized selector falls back to the basic plan. A selector
naming an inherited member keeps the truthy inherited value instead (see
`selectedPlanJS` and the C9 correction below). -/
def selectedPlanOf (plan : Option String) : Plan :=
  (plan.bind plansCatalog).getD basicPlan

/-- Order status stored in `pendingPayments`. -/
inductive OrderStatus where
  | pending
  | completed
deriving DecidableEq, Repr

/-- Order record in the `pendingPayments` map; `apiKey` and `txid` are
set only when the webhook completes the order. -/
structure Payment where
  plan : Plan
  email : Option String
  address_in : String
  status : OrderStatus
  created : Int
  apiKey : Option String
  txid : Option String
deriving DecidableEq, Repr

/-- API-key record in the `apiKeys` map. -/
structure KeyData where
  plan : String
  callsRemaining : Int
  email : Option String
  createdAt : Int
  expiresAt : Int
deriving DecidableEq, Repr

/-- Process-wide mutable state: the two in-memory stores. -/
structure ServerState where
  pendingPayments : List (String × Payment)
  apiKeys : List (String × KeyData)
deriving DecidableEq, Repr

def API_KEY_VALIDITY_DAYS : Int := 30

/-! ### JS number parsing

`parseFloat` and `parseInt` as used on the webhook fields: optional
leading whitespace and sign, then the longest prefix of decimal digits
(with an optional fractional part for `parseFloat`); `none` models `NaN`.
Exponent forms never occur in the inputs the handler sees and are out of
scope. -/

def digitVal (c : Char) : Option ℚ :=
  if c.isDigit then some ((c.toNat - 48 : ℕ) : ℚ) else none

/-- Longest prefix of decimal digits, returned with the rest. -/
def takeDigits : List Char → List ℚ × List Char
  | [] => ([], [])
  | c :: cs =>
      match digitVal c with
      | some d => let (ds, rest) := takeDigits cs; (d :: ds, rest)
      | none => ([], c :: cs)

def digitsVal (ds : List ℚ) : ℚ := ds.foldl (fun a d => a * 10 + d) 0

def fracVal (ds : List ℚ) : ℚ := ds.foldr (fun d a => (d + a) / 10) 0

/-- Sign handling shared by both parsers: strips whitespace and one sign. -/
def signSplit (s : String) : ℚ × List Char :=
  match s.data.dropWhile (·.isWhitespace) with
  | '-' :: t => (-1, t)
  | '+' :: t => (1, t)
  | cs => (1, cs)

/-- JS `parseFloat` on a string; `none` is `NaN`. -/
def parseFloatJS (s : String) : Option ℚ :=
  let (sign, cs) := signSplit s
  let (ip, rest) := takeDigits cs
  match rest with
  | '.' :: t =>
      let (fp, _) := takeDigits t
      if ip.isEmpty ∧ fp.isEmpty then none
      else some (sign * (digitsVal ip + fracVal fp))
  | _ => if ip.isEmpty then none else some (sign * digitsVal ip)

/-- JS `parseInt` on a string; `none` is `NaN`. -/
def parseIntJS (s : String) : Option ℚ :=
  let (sign, cs) := signSplit s
  let (ip, _) := takeDigits cs
  if ip.isEmpty then none else some (sign * digitsVal ip)

/-- Embeds `parseFloat(data.value_coin || 0)` : an absent or empty field
is the falsy branch, giving the number `0`. -/
def valueCoinOf (f : Option String) : Option ℚ :=
  match f with
  | none => some 0
  | some s => if s = "" then some 0 else parseFloatJS s

/-- Embeds `parseInt(data.pending || 0)` : an absent or empty field is the
falsy branch, giving the number `0`. -/
def pendingOf (f : Option String) : Option ℚ :=
  match f with
  | none => some 0
  | some s => if s = "" then some 0 else parseIntJS s

/-! ### Payment webhook handler -/

/-- Fields the webhook handler reads from either transport source; absent
fields are `none` (JS `undefined`). -/
structure WebhookFields where
  order_id : Option String
  value_coin : Option String
  pending : Option String
  txid_in : Option String
deriving DecidableEq, Repr

def emptyFields : WebhookFields := ⟨none, none, none, none⟩

/-- A webhook invocation: the HTTP method plus the query-string and
request-body field sets. -/
structure WebhookReq where
  method : String
  query : WebhookFields
  body : WebhookFields
deriving DecidableEq, Repr

/-- Embeds `const data = req.method === 'GET' ? req.query : req.body`. -/
def webhookData (req : WebhookReq) : WebhookFields :=
  if req.method = "GET" then req.query else req.body

/-- Response of a handler: HTTP status plus a payload descriptor. -/
inductive Payload where
  | text (s : String)
  | err (msg : String)
  | priceInfo
  | alertInfo
  | batchInfo
  | healthInfo
  | rootInfo
  | createInfo (orderId : String) (planName : String) (priceUSD : ℚ)
      (address : String) (amount : ℚ) (minimum : String) (instructions : String)
  | statusCompleted (apiKey : String) (planName : String)
  | statusPending (address : String) (planName : String) (priceUSD : ℚ)
deriving DecidableEq, Repr

structure Response where
  status : Nat
  payload : Payload
deriving DecidableEq, Repr

/-- The unconditional `res.status(200).send('*ok*')` acknowledgment. -/
def okResp : Response := ⟨200, .text "*ok*"⟩

/-- The confirmation test of the webhook:
`pending === 0 && valueCoin >= payment.plan.price * 0.95`. A `NaN` on
either side makes the comparison false. -/
def confirmCond (d : WebhookFields) (price : ℚ) : Bool :=
  (pendingOf d.pending == some 0) &&
  (match valueCoinOf d.value_coin with
   | some v => decide (price * (95 / 100) ≤ v)
   | none => false)

/-- Key record minted on confirmation, from `apiKeys.set(apiKey, {...})`. -/
def mintedKeyData (now : Int) (p : Payment) : KeyData :=
  { plan := p.plan.name
    callsRemaining := p.plan.calls
    email := p.email
    createdAt := now
    expiresAt := now + API_KEY_VALIDITY_DAYS * 24 * 60 * 60 * 1000 }

/-- The `app.all('/payment/webhook')` handler. `freshKey` stands for the
random `pk_`-prefixed token from `crypto.randomBytes`. -/
def webhookHandler (now : Int) (freshKey : String) (st : ServerState)
    (req : WebhookReq) : ServerState × Response :=
  match req.query.order_id with
  | none => (st, okResp)
  | some oid =>
      match storeFind? st.pendingPayments oid with
      | none => (st, okResp)
      | some payment =>
          let d := webhookData req
          if confirmCond d payment.plan.price then
            let payment' := { payment with
              status := .completed
              apiKey := some freshKey
              txid := d.txid_in }
            ({ pendingPayments := storeSet st.pendingPayments oid payment'
               apiKeys := storeSet st.apiKeys freshKey (mintedKeyData now payment) },
             okResp)
          else (st, okResp)

/-! ### Key validation middleware -/

/-- Outcome of the `validateApiKey` middleware: continue on the free tier,
reject with an HTTP status, or continue with the key metadata attached to
the request context. -/
inductive AuthOutcome where
  | nextFree
  | reject (status : Nat) (msg : String)
  | nextKeyed (kd : KeyData)
deriving DecidableEq, Repr

/-- The `validateApiKey` middleware. A missing header falls to the free
tier; an unknown key is a 401; an expired key is a 401; exhausted quota is
a 429; otherwise the quota is decremented and processing continues with
the (decremented) record attached. -/
def validateApiKey (now : Int) (st : ServerState) (header : Option String) :
    ServerState × AuthOutcome :=
  match header with
  | none => (st, .nextFree)
  | some key =>
      match storeFind? st.apiKeys key with
      | none => (st, .reject 401 "Invalid API key")
      | some kd =>
          if now > kd.expiresAt then (st, .reject 401 "API key expired")
          else if kd.callsRemaining ≤ 0 then (st, .reject 429 "API calls exhausted")
          else
            let kd' := { kd with callsRemaining := kd.callsRemaining - 1 }
            ({ st with apiKeys := storeSet st.apiKeys key kd' }, .nextKeyed kd')

/-! ### Order creation -/

/-- Outcome of the outbound CryptAPI create-address call as the handler
observes it: a success payload, a non-success status, or a thrown
error (timeout/unreachable). -/
inductive ProcessorResult where
  | success (address_in : String) (minimum : String)
  | failure
  | unreachable
deriving DecidableEq, Repr

/-- Embeds `email: email || null` : an absent or empty email is stored as
null. -/
def emailOrNull (e : Option String) : Option String :=
  match e with
  | none => none
  | some s => if s = "" then none else some s

def createInstructions : String :=
  "Send USDC on Solana to the address above. API key will be generated automatically."

/-- The `app.post('/payment/create')` handler. `orderId` stands for the
random 8-byte hex id from `crypto.randomBytes`; `proc` for the observed
CryptAPI response. -/
def paymentCreate (now : Int) (orderId : String) (st : ServerState)
    (plan email : Option String) (proc : ProcessorResult) :
    ServerState × Response :=
  let sp := selectedPlanOf plan
  match proc with
  | .success addr min =>
      let order : Payment :=
        { plan := sp
          email := emailOrNull email
          address_in := addr
          status := .pending
          created := now
          apiKey := none
          txid := none }
      ({ st with pendingPayments := storeSet st.pendingPayments orderId order },
       ⟨200, .createInfo orderId sp.name sp.price addr sp.price min createInstructions⟩)
  | .failure => (st, ⟨500, .err "Failed to create payment address"⟩)
  | .unreachable => (st, ⟨500, .err "Payment service unavailable"⟩)

/-! ### Order status query -/

/-- The `app.get('/payment/status/:orderId')` handler. The completed
branch needs `payment.status === 'completed' && payment.apiKey` with a JS
truthy (nonempty) key string. -/
def truthyKey : Option String → Bool
  | some k => k ≠ ""
  | none => false

def paymentStatus (st : ServerState) (orderId : String) : ServerState × Response :=
  match storeFind? st.pendingPayments orderId with
  | none => (st, ⟨404, .err "Order not found"⟩)
  | some p =>
      if p.status = .completed ∧ truthyKey p.apiKey then
        (st, ⟨200, .statusCompleted (p.apiKey.getD "") p.plan.name⟩)
      else
        (st, ⟨200, .statusPending p.address_in p.plan.name p.plan.price⟩)

/-! ### Route table and request dispatch

The app registers exactly these handlers; `validateApiKey` is defined but
attached to none of them, so the middleware list of every route is empty.
The out-of-scope price endpoints are modelled only as far as their status
codes and their (absent) effect on the two stores; external fetch results
enter as oracle parameters on the request. -/

structure Route where
  method : String
  path : String
  middlewares : List String
deriving DecidableEq, Repr

def registeredRoutes : List Route :=
  [ ⟨"GET", "/price/:type/:symbol", []⟩
  , ⟨"POST", "/alert/check", []⟩
  , ⟨"POST", "/price/batch", []⟩
  , ⟨"GET", "/health", []⟩
  , ⟨"POST", "/payment/create", []⟩
  , ⟨"ALL", "/payment/webhook", []⟩
  , ⟨"GET", "/payment/status/:orderId", []⟩
  , ⟨"GET", "/", []⟩ ]

/-- A dispatched request: one constructor per registered route, carrying
the request data plus the environment inputs the handler consumes
(external fetch results, fresh random tokens, the clock). -/
inductive Request where
  | priceGet (type symbol : String) (fetched : Option ℚ)
  | alertCheck (type symbol condition : Option String) (threshold : Option ℚ)
      (fetched : Option ℚ)
  | priceBatch (symbolsPresent : Bool)
  | health
  | rootDoc
  | createOrder (plan email : Option String) (proc : ProcessorResult)
      (orderId : String) (now : Int)
  | webhook (w : WebhookReq) (freshKey : String) (now : Int)
  | statusQuery (orderId : String)

/-- Request processing for every registered route. The price handlers
touch only the (unmodelled) price cache, never the two stores. -/
def dispatch (st : ServerState) : Request → ServerState × Response
  | .priceGet ty _ fetched =>
      if ty ≠ "crypto" ∧ ty ≠ "stock" then (st, ⟨400, .err "Type must be crypto or stock"⟩)
      else match fetched with
        | none => (st, ⟨404, .err "Symbol not found or API error"⟩)
        | some _ => (st, ⟨200, .priceInfo⟩)
  | .alertCheck ty sym cond thr fetched =>
      if ty = none ∨ sym = none ∨ cond = none ∨ thr = none then
        (st, ⟨400, .err "Required: type, symbol, condition (above/below/change), threshold"⟩)
      else match fetched with
        | none => (st, ⟨404, .err "Symbol not found"⟩)
        | some _ =>
            if cond = some "above" ∨ cond = some "below" then (st, ⟨200, .alertInfo⟩)
            else (st, ⟨400, .err "Condition must be above or below"⟩)
  | .priceBatch symbolsPresent =>
      if symbolsPresent then (st, ⟨200, .batchInfo⟩)
      else (st, ⟨400, .err "Required: symbols array"⟩)
  | .health => (st, ⟨200, .healthInfo⟩)
  | .rootDoc => (st, ⟨200, .rootInfo⟩)
  | .createOrder plan email proc orderId now => paymentCreate now orderId st plan email proc
  | .webhook w freshKey now => webhookHandler now freshKey st w
  | .statusQuery orderId => paymentStatus st orderId

/-- Freshness of the random token feeding a request: the webhook handler
receives a key from `crypto.randomBytes` that is not already in the Key
Store. -/
def requestFresh (st : ServerState) : Request → Prop
  | .webhook _ freshKey _ => storeFind? st.apiKeys freshKey = none
  | _ => True

/-! ### Helper lemmas -/

attribute [local semireducible] Rat.mul Rat.inv Rat.add Rat.sub

theorem length_storeSet_of_not_found {α : Type} (s : List (String × α)) (k : String)
    (v : α) (h : storeFind? s k = none) :
    (storeSet s k v).length = s.length + 1 := by
  induction s with
  | nil => simp [storeSet]
  | cons hd tl ih =>
      obtain ⟨k₀, v₀⟩ := hd
      by_cases hk : k₀ = k
      · simp [storeFind?, hk] at h
      · simp only [storeFind?, if_neg hk] at h
        simp [storeSet, hk, ih h]

theorem selectedPlanJS_eq_ownPlan (plan : Option String)
    (h : ∀ s, plan = some s → s ∉ objectPrototypeMembers) :
    selectedPlanJS plan = .ownPlan (selectedPlanOf plan) := by
  cases plan with
  | none => rfl
  | some s =>
      have hs : s ∉ objectPrototypeMembers := h s rfl
      by_cases h1 : s = "basic"
      · subst h1; rfl
      · by_cases h2 : s = "pro"
        · subst h2; rfl
        · by_cases h3 : s = "unlimited"
          · subst h3; rfl
          · simp [selectedPlanJS, selectedPlanOf, plansGet, plansCatalog, h1, h2, h3, hs]

theorem confirmCond_iff (d : WebhookFields) (price : ℚ) :
    confirmCond d price = true ↔
      (pendingOf d.pending = some 0 ∧
        ∃ v, valueCoinOf d.value_coin = some v ∧ price * (95 / 100) ≤ v) := by
  unfold confirmCond
  cases hv : valueCoinOf d.value_coin with
  | none => simp [hv]
  | some v => simp [hv, Bool.and_eq_true, beq_iff_eq, decide_eq_true_iff]

theorem webhookHandler_no_order_id (now : Int) (freshKey : String) (st : ServerState)
    (req : WebhookReq) (hq : req.query.order_id = none) :
    webhookHandler now freshKey st req = (st, okResp) := by
  simp [webhookHandler, hq]

theorem webhookHandler_order_not_found (now : Int) (freshKey : String) (st : ServerState)
    (req : WebhookReq) (oid : String) (hq : req.query.order_id = some oid)
    (hfind : storeFind? st.pendingPayments oid = none) :
    webhookHandler now freshKey st req = (st, okResp) := by
  simp [webhookHandler, hq, hfind]

theorem webhookHandler_confirm (now : Int) (freshKey : String) (st : ServerState)
    (req : WebhookReq) (oid : String) (p : Payment)
    (hq : req.query.order_id = some oid)
    (hfind : storeFind? st.pendingPayments oid = some p)
    (hc : confirmCond (webhookData req) p.plan.price = true) :
    webhookHandler now freshKey st req =
      ({ pendingPayments := storeSet st.pendingPayments oid
           { p with status := .completed, apiKey := some freshKey,
                    txid := (webhookData req).txid_in }
         apiKeys := storeSet st.apiKeys freshKey (mintedKeyData now p) }, okResp) := by
  simp [webhookHandler, hq, hfind, hc]

theorem webhookHandler_no_confirm (now : Int) (freshKey : String) (st : ServerState)
    (req : WebhookReq) (oid : String) (p : Payment)
    (hq : req.query.order_id = some oid)
    (hfind : storeFind? st.pendingPayments oid = some p)
    (hc : confirmCond (webhookData req) p.plan.price = false) :
    webhookHandler now freshKey st req = (st, okResp) := by
  simp [webhookHandler, hq, hfind, hc]

theorem webhookHandler_always_ok (now : Int) (freshKey : String) (st : ServerState)
    (req : WebhookReq) : (webhookHandler now freshKey st req).2 = okResp := by
  cases hq : req.query.order_id with
  | none => rw [webhookHandler_no_order_id now freshKey st req hq]
  | some oid =>
      cases hfind : storeFind? st.pendingPayments oid with
      | none => rw [webhookHandler_order_not_found now freshKey st req oid hq hfind]
      | some p =>
          cases hc : confirmCond (webhookData req) p.plan.price with
          | false => rw [webhookHandler_no_confirm now freshKey st req oid p hq hfind hc]
          | true => rw [webhookHandler_confirm now freshKey st req oid p hq hfind hc]

/-! ### Claim theorems -/

/-- C3: for a webhook invocation resolving to a pending order, the order
transitions to completed — key minted, key and transaction id attached —
exactly when the parsed pending counter is zero and the parsed amount is
at least 0.95 times the plan price; otherwise the state is untouched, and
the response is the success acknowledgment in both cases. -/
theorem webhook_pending_order_confirms_iff (now : Int) (freshKey : String)
    (st : ServerState) (req : WebhookReq) (oid : String) (p : Payment)
    (hq : req.query.order_id = some oid)
    (hfind : storeFind? st.pendingPayments oid = some p)
    (_hpend : p.status = .pending) :
    ((pendingOf (webhookData req).pending = some 0 ∧
        ∃ v, valueCoinOf (webhookData req).value_coin = some v ∧
          p.plan.price * (95 / 100) ≤ v) →
      storeFind? (webhookHandler now freshKey st req).1.pendingPayments oid =
        some { p with status := .completed, apiKey := some freshKey,
                      txid := (webhookData req).txid_in } ∧
      storeFind? (webhookHandler now freshKey st req).1.apiKeys freshKey =
        some (mintedKeyData now p)) ∧
    (¬(pendingOf (webhookData req).pending = some 0 ∧
        ∃ v, valueCoinOf (webhookData req).value_coin = some v ∧
          p.plan.price * (95 / 100) ≤ v) →
      (webhookHandler now freshKey st req).1 = st) ∧
    (webhookHandler now freshKey st req).2 = okResp := by
  refine ⟨fun hcond => ?_, fun hcond => ?_, webhookHandler_always_ok now freshKey st req⟩
  · have hc : confirmCond (webhookData req) p.plan.price = true :=
      (confirmCond_iff (webhookData req) p.plan.price).mpr hcond
    rw [webhookHandler_confirm now freshKey st req oid p hq hfind hc]
    constructor
    · simp [find_storeSet]
    · simp [find_storeSet]
  · have hc : confirmCond (webhookData req) p.plan.price = false := by
      cases h : confirmCond (webhookData req) p.plan.price
      · rfl
      · exact absurd ((confirmCond_iff (webhookData req) p.plan.price).mp h) hcond
    rw [webhookHandler_no_confirm now freshKey st req oid p hq hfind hc]

def w3Payment : Payment := ⟨proPlan, some "a@b.c", "ADDR1", .pending, 0, none, none⟩

def w3State : ServerState := ⟨[("ord1", w3Payment)], []⟩

def w3Req : WebhookReq :=
  ⟨"GET", ⟨some "ord1", some "14.3", some "0", some "tx9"⟩, emptyFields⟩

/-- C3 witness: a concrete pending pro order confirmed by a GET carrying
value 14.3 (95.3 percent of 15) and pending 0. -/
theorem webhook_pending_order_confirms_iff_witness :
    w3Req.query.order_id = some "ord1" ∧
    storeFind? w3State.pendingPayments "ord1" = some w3Payment ∧
    w3Payment.status = .pending ∧
    storeFind? (webhookHandler 1000 "pk_w" w3State w3Req).1.pendingPayments "ord1" =
      some { w3Payment with status := .completed, apiKey := some "pk_w",
                            txid := some "tx9" } := by
  refine ⟨rfl, rfl, rfl, ?_⟩
  have h := (webhook_pending_order_confirms_iff 1000 "pk_w" w3State w3Req "ord1"
      w3Payment rfl rfl rfl).1 (by decide)
  exact h.1

/-- C6: a webhook invocation whose order identifier does not resolve in
the Order Store — including an absent identifier — leaves both stores
untouched and responds with the success acknowledgment. -/
theorem webhook_unknown_order_noop (now : Int) (freshKey : String)
    (st : ServerState) (req : WebhookReq)
    (h : ∀ oid, req.query.order_id = some oid →
      storeFind? st.pendingPayments oid = none) :
    webhookHandler now freshKey st req = (st, okResp) := by
  cases hq : req.query.order_id with
  | none => exact webhookHandler_no_order_id now freshKey st req hq
  | some oid =>
      exact webhookHandler_order_not_found now freshKey st req oid hq (h oid hq)

/-- C6 witness: a concrete webhook naming an order id absent from the
store is a no-op with the success acknowledgment. -/
theorem webhook_unknown_order_noop_witness :
    webhookHandler 7 "pk_w" ⟨[], []⟩
        ⟨"GET", ⟨some "nope", some "15", some "0", none⟩, emptyFields⟩ =
      (⟨[], []⟩, okResp) :=
  webhook_unknown_order_noop 7 "pk_w" ⟨[], []⟩
    ⟨"GET", ⟨some "nope", some "15", some "0", none⟩, emptyFields⟩
    (by intro oid hq; cases hq; rfl)

/-- C10: on a known pending order, an absent or empty pending field is
parsed as zero, so a notification carrying only a sufficient amount
completes the order and mints a key. -/
theorem webhook_absent_pending_counts_as_zero (now : Int) (freshKey : String)
    (st : ServerState) (req : WebhookReq) (oid : String) (p : Payment) (v : ℚ)
    (hq : req.query.order_id = some oid)
    (hfind : storeFind? st.pendingPayments oid = some p)
    (_hpend : p.status = .pending)
    (hfield : (webhookData req).pending = none ∨ (webhookData req).pending = some "")
    (hval : valueCoinOf (webhookData req).value_coin = some v)
    (hamt : p.plan.price * (95 / 100) ≤ v) :
    (storeFind? (webhookHandler now freshKey st req).1.pendingPayments oid).map
        Payment.status = some .completed ∧
    (storeFind? (webhookHandler now freshKey st req).1.pendingPayments oid).map
        Payment.apiKey = some (some freshKey) ∧
    storeFind? (webhookHandler now freshKey st req).1.apiKeys freshKey =
      some (mintedKeyData now p) := by
  have hzero : pendingOf (webhookData req).pending = some 0 := by
    rcases hfield with h | h <;> rw [h] <;> rfl
  have hc : confirmCond (webhookData req) p.plan.price = true :=
    (confirmCond_iff (webhookData req) p.plan.price).mpr ⟨hzero, v, hval, hamt⟩
  rw [webhookHandler_confirm now freshKey st req oid p hq hfind hc]
  refine ⟨?_, ?_, ?_⟩ <;> simp [find_storeSet]

def w10Req : WebhookReq :=
  ⟨"GET", ⟨some "ord1", some "14.3", none, some "tx9"⟩, emptyFields⟩

/-- C10 witness: a concrete GET with no pending field and value 14.3 on a
pending pro order completes it. -/
theorem webhook_absent_pending_counts_as_zero_witness :
    (storeFind? (webhookHandler 1000 "pk_w" w3State w10Req).1.pendingPayments
        "ord1").map Payment.status = some .completed :=
  (webhook_absent_pending_counts_as_zero 1000 "pk_w" w3State w10Req "ord1"
    w3Payment (143 / 10) rfl rfl rfl (Or.inl rfl) (by decide) (by decide)).1

def c1Payment : Payment := ⟨basicPlan, none, "ADDR", .completed, 0, some "pk_first", some "tx1"⟩

def c1State : ServerState := ⟨[("ord1", c1Payment)], [("pk_first", mintedKeyData 0 c1Payment)]⟩

def c1Req : WebhookReq := ⟨"GET", ⟨some "ord1", some "15", some "0", some "tx2"⟩, emptyFields⟩

/-- C1: the code violates at-most-once minting. The handler never checks
whether the order is already completed, so a second fully confirming
callback for a completed order mints a second key into the Key Store and
replaces the key attached to the order, while still acknowledging
success. Evaluated here at a concrete completed order. -/
theorem webhook_second_confirming_callback_mints_second_key :
    (storeFind? c1State.pendingPayments "ord1").map Payment.apiKey =
      some (some "pk_first") ∧
    storeFind? c1State.apiKeys "pk_second" = none ∧
    (storeFind? (webhookHandler 999 "pk_second" c1State c1Req).1.pendingPayments
        "ord1").map Payment.apiKey = some (some "pk_second") ∧
    storeFind? (webhookHandler 999 "pk_second" c1State c1Req).1.apiKeys "pk_second" =
      some (mintedKeyData 999 c1Payment) ∧
    storeFind? (webhookHandler 999 "pk_second" c1State c1Req).1.apiKeys "pk_first" =
      some (mintedKeyData 0 c1Payment) ∧
    (webhookHandler 999 "pk_second" c1State c1Req).2 = okResp := by
  decide

def c7Payment : Payment := ⟨basicPlan, none, "ADDR", .pending, 0, none, none⟩

def c7State : ServerState := ⟨[("ord1", c7Payment)], []⟩

def c7Fields : WebhookFields := ⟨some "ord1", some "15", some "0", some "tx1"⟩

def c7QueryOnlyPost : WebhookReq := ⟨"POST", c7Fields, emptyFields⟩

def c7BodyPost : WebhookReq := ⟨"POST", ⟨some "ord1", none, none, none⟩, c7Fields⟩

def c7BodyOrderId : WebhookReq := ⟨"POST", emptyFields, c7Fields⟩

/-- C7 counterexample: the handler does not merge query and body. A POST
delivering fully confirming payment fields only in the query string
leaves the order pending, while the same fields delivered in the body
complete it; and a POST delivering the order id only in the body is a
no-op. -/
theorem webhook_post_query_fields_not_merged :
    (webhookHandler 999 "pk_w7" c7State c7QueryOnlyPost).1 = c7State ∧
    (storeFind? (webhookHandler 999 "pk_w7" c7State c7BodyPost).1.pendingPayments
        "ord1").map Payment.status = some .completed ∧
    (webhookHandler 999 "pk_w7" c7State c7BodyOrderId).1 = c7State := by
  decide

/-- C7 amended: the handler reads the payment fields from the query
string for GET requests and from the body for any other method, and the
order identifier from the query string only — two invocations agreeing on
the query order id and on the method-selected field set are processed
identically, and fields in the non-selected source are ignored. -/
theorem webhook_source_selected_by_method (now : Int) (freshKey : String)
    (st : ServerState) (r₁ r₂ : WebhookReq)
    (hq : r₁.query.order_id = r₂.query.order_id)
    (hd : webhookData r₁ = webhookData r₂) :
    webhookHandler now freshKey st r₁ = webhookHandler now freshKey st r₂ := by
  simp only [webhookHandler, hq, hd]

def c7Get : WebhookReq := ⟨"GET", c7Fields, emptyFields⟩

/-- C7 amended witness: a GET carrying the fields in the query and a POST
carrying the same fields in the body, with the same query order id, are
processed identically. -/
theorem webhook_source_selected_by_method_witness :
    webhookHandler 999 "pk_w7" c7State c7Get = webhookHandler 999 "pk_w7" c7State c7BodyPost :=
  webhook_source_selected_by_method 999 "pk_w7" c7State c7Get c7BodyPost rfl rfl

/-- C4: for a key found in the store and not expired: exhausted quota is
rejected with the 429 signal (distinct from the 401 expiry signal) and no
mutation; positive quota is accepted with the metadata attached and the
quota decremented by exactly one; and a key with quota 1 is accepted once
and rejected with the quota error on the next call. -/
theorem validation_gate_quota (now : Int) (st : ServerState) (key : String)
    (kd : KeyData)
    (hfind : storeFind? st.apiKeys key = some kd)
    (hexp : ¬now > kd.expiresAt) :
    (kd.callsRemaining ≤ 0 →
      validateApiKey now st (some key) = (st, .reject 429 "API calls exhausted")) ∧
    (1 ≤ kd.callsRemaining →
      validateApiKey now st (some key) =
        ({ st with apiKeys :=
             storeSet st.apiKeys key { kd with callsRemaining := kd.callsRemaining - 1 } },
         .nextKeyed { kd with callsRemaining := kd.callsRemaining - 1 }) ∧
      storeFind? (validateApiKey now st (some key)).1.apiKeys key =
        some { kd with callsRemaining := kd.callsRemaining - 1 }) ∧
    (kd.callsRemaining = 1 →
      (validateApiKey now (validateApiKey now st (some key)).1 (some key)).2 =
        .reject 429 "API calls exhausted" ∧
      (validateApiKey now (validateApiKey now st (some key)).1 (some key)).1 =
        (validateApiKey now st (some key)).1) ∧
    (AuthOutcome.reject 429 "API calls exhausted" ≠ .reject 401 "API key expired") := by
  refine ⟨fun hz => ?_, fun hpos => ?_, fun hone => ?_, by simp⟩
  · simp [validateApiKey, hfind, hexp, hz]
  · have hnz : ¬kd.callsRemaining ≤ 0 := by omega
    constructor
    · simp [validateApiKey, hfind, hexp, hnz]
    · simp [validateApiKey, hfind, hexp, hnz, find_storeSet]
  · have hnz : ¬kd.callsRemaining ≤ 0 := by omega
    have h1 : validateApiKey now st (some key) =
        ({ st with apiKeys :=
             storeSet st.apiKeys key { kd with callsRemaining := kd.callsRemaining - 1 } },
         .nextKeyed { kd with callsRemaining := kd.callsRemaining - 1 }) := by
      simp [validateApiKey, hfind, hexp, hnz]
    rw [h1]
    have hfind2 : storeFind?
        (storeSet st.apiKeys key { kd with callsRemaining := kd.callsRemaining - 1 }) key =
        some { kd with callsRemaining := kd.callsRemaining - 1 } := by
      simp [find_storeSet]
    have hz2 : ({ kd with callsRemaining := kd.callsRemaining - 1 } : KeyData).callsRemaining ≤ 0 := by
      simp [hone]
    constructor
    · simp [validateApiKey, hfind2, hexp, hz2]
    · simp [validateApiKey, hfind2, hexp, hz2]

def c4Key : KeyData := ⟨"Basic", 1, none, 0, 10000⟩

def c4State : ServerState := ⟨[], [("pk_q", c4Key)]⟩

/-- C4 witness: a concrete key with quota 1 and a future expiry is
accepted once with the quota falling to 0, and the next call with the
same key is rejected with the quota error. -/
theorem validation_gate_quota_witness :
    storeFind? c4State.apiKeys "pk_q" = some c4Key ∧
    ¬(5 : Int) > c4Key.expiresAt ∧
    storeFind? (validateApiKey 5 c4State (some "pk_q")).1.apiKeys "pk_q" =
      some { c4Key with callsRemaining := 0 } ∧
    (validateApiKey 5 (validateApiKey 5 c4State (some "pk_q")).1 (some "pk_q")).2 =
      .reject 429 "API calls exhausted" := by
  have h := validation_gate_quota 5 c4State "pk_q" c4Key rfl (by decide)
  exact ⟨rfl, by decide, (h.2.1 (by decide)).2, (h.2.2.1 rfl).1⟩

/-- C5: a key found in the store whose expiry is in the past is rejected
with the 401 expiry signal and no store mutation, whatever the remaining
quota — the expiry check precedes the quota check. -/
theorem validation_gate_expired (now : Int) (st : ServerState) (key : String)
    (kd : KeyData)
    (hfind : storeFind? st.apiKeys key = some kd)
    (hexp : now > kd.expiresAt) :
    validateApiKey now st (some key) = (st, .reject 401 "API key expired") := by
  simp [validateApiKey, hfind, hexp]

def c5Key : KeyData := ⟨"Basic", 0, none, 0, 10⟩

def c5State : ServerState := ⟨[], [("pk_e", c5Key)]⟩

/-- C5 witness: a concrete expired key with exhausted quota is rejected
with the expiry signal, not the quota signal, and the state is
untouched. -/
theorem validation_gate_expired_witness :
    validateApiKey 11 c5State (some "pk_e") = (c5State, .reject 401 "API key expired") :=
  validation_gate_expired 11 c5State "pk_e" c5Key rfl (by decide)

/-- C8: order creation persists nothing and returns a retryable 500 when
the processor call fails (non-success status or unreachable); on success
it adds exactly one pending order — found under the fresh id, all other
ids untouched, the Key Store untouched — and responds with the order id,
plan summary and deposit instructions. -/
theorem order_creation_effects (now : Int) (orderId : String) (st : ServerState)
    (plan email : Option String) :
    (∀ proc : ProcessorResult, proc = .failure ∨ proc = .unreachable →
      (paymentCreate now orderId st plan email proc).1 = st ∧
      (paymentCreate now orderId st plan email proc).2.status = 500) ∧
    (∀ addr min, storeFind? st.pendingPayments orderId = none →
      storeFind? (paymentCreate now orderId st plan email (.success addr min)).1.pendingPayments
          orderId =
        some { plan := selectedPlanOf plan, email := emailOrNull email, address_in := addr,
               status := .pending, created := now, apiKey := none, txid := none } ∧
      (paymentCreate now orderId st plan email (.success addr min)).1.pendingPayments.length =
        st.pendingPayments.length + 1 ∧
      (∀ k, k ≠ orderId →
        storeFind? (paymentCreate now orderId st plan email (.success addr min)).1.pendingPayments k =
          storeFind? st.pendingPayments k) ∧
      (paymentCreate now orderId st plan email (.success addr min)).1.apiKeys = st.apiKeys ∧
      (paymentCreate now orderId st plan email (.success addr min)).2 =
        ⟨200, .createInfo orderId (selectedPlanOf plan).name (selectedPlanOf plan).price addr
          (selectedPlanOf plan).price min createInstructions⟩) := by
  constructor
  · rintro proc (rfl | rfl) <;> exact ⟨rfl, rfl⟩
  · intro addr min hfresh
    refine ⟨?_, ?_, ?_, rfl, rfl⟩
    · simp [paymentCreate, find_storeSet]
    · exact length_storeSet_of_not_found st.pendingPayments orderId _ hfresh
    · intro k hk
      have hk' : ¬orderId = k := fun e => hk e.symm
      simp [paymentCreate, find_storeSet, hk']

/-- C8 witness: with an empty store, a failed processor call persists
nothing and returns 500, and a successful call stores one pending pro
order and returns 200 with the deposit address. -/
theorem order_creation_effects_witness :
    (paymentCreate 4 "oid1" ⟨[], []⟩ (some "pro") none .unreachable).1 = ⟨[], []⟩ ∧
    storeFind? (paymentCreate 4 "oid1" ⟨[], []⟩ (some "pro") none
        (.success "ADDR1" "0.01")).1.pendingPayments "oid1" =
      some { plan := proPlan, email := none, address_in := "ADDR1",
             status := .pending, created := 4, apiKey := none, txid := none } := by
  have h := order_creation_effects 4 "oid1" ⟨[], []⟩ (some "pro") none
  exact ⟨(h.1 .unreachable (Or.inr rfl)).1, (h.2 "ADDR1" "0.01" rfl).1⟩

/-- C9 counterexample: the selector toString is outside the catalog
identifiers, yet `plans[plan]` resolves it through the prototype chain to
the truthy inherited `Object.prototype.toString`, so the fallback to the
basic plan is defeated — refuting the claim that every non-catalog
selector resolves to basic. -/
theorem proto_member_selector_defeats_fallback :
    ("toString" ≠ "basic" ∧ "toString" ≠ "pro" ∧ "toString" ≠ "unlimited") ∧
    selectedPlanJS (some "toString") = .inheritedMember "toString" ∧
    selectedPlanJS (some "toString") ≠ .ownPlan basicPlan := by
  decide

/-- C9 amended: a plan selector that is absent, or neither a catalog
identifier nor the name of a member inherited from `Object.prototype`,
resolves to the default basic plan (price 5, quota 1000), and order
creation proceeds normally with it rather than erroring; a selector
naming an inherited member instead keeps the truthy inherited value. -/
theorem unknown_plan_defaults_to_basic (plan : Option String)
    (h : ∀ s, plan = some s →
      s ≠ "basic" ∧ s ≠ "pro" ∧ s ≠ "unlimited" ∧ s ∉ objectPrototypeMembers) :
    selectedPlanJS plan = .ownPlan basicPlan ∧
    selectedPlanOf plan = basicPlan ∧ basicPlan.price = 5 ∧ basicPlan.calls = 1000 ∧
    ∀ (now : Int) (orderId : String) (st : ServerState) (email : Option String)
      (addr min : String),
      (paymentCreate now orderId st plan email (.success addr min)).2 =
        ⟨200, .createInfo orderId "Basic" 5 addr 5 min createInstructions⟩ ∧
      storeFind? (paymentCreate now orderId st plan email
          (.success addr min)).1.pendingPayments orderId =
        some { plan := basicPlan, email := emailOrNull email, address_in := addr,
               status := .pending, created := now, apiKey := none, txid := none } := by
  have hsel : selectedPlanOf plan = basicPlan := by
    cases plan with
    | none => rfl
    | some s =>
        obtain ⟨h1, h2, h3, _⟩ := h s rfl
        simp [selectedPlanOf, plansCatalog, h1, h2, h3]
  have hjs : selectedPlanJS plan = .ownPlan basicPlan := by
    rw [selectedPlanJS_eq_ownPlan plan (fun s hs => (h s hs).2.2.2), hsel]
  refine ⟨hjs, hsel, rfl, rfl, ?_⟩
  intro now orderId st email addr min
  constructor
  · simp [paymentCreate, hsel, basicPlan]
  · simp [paymentCreate, hsel, find_storeSet]

/-- C9 amended witness: the selector gold is neither a catalog
identifier nor an inherited prototype member; it resolves to the basic
plan, and a creation with it succeeds and stores a basic order. -/
theorem unknown_plan_defaults_to_basic_witness :
    selectedPlanJS (some "gold") = .ownPlan basicPlan ∧
    selectedPlanOf (some "gold") = basicPlan ∧
    (paymentCreate 4 "oid2" ⟨[], []⟩ (some "gold") none (.success "A2" "m")).2 =
      ⟨200, .createInfo "oid2" "Basic" 5 "A2" 5 "m" createInstructions⟩ := by
  have h := unknown_plan_defaults_to_basic (some "gold")
    (fun s hs => by cases hs; exact ⟨by decide, by decide, by decide, by decide⟩)
  exact ⟨h.1, h.2.1, (h.2.2.2.2 4 "oid2" ⟨[], []⟩ none "A2" "m").1⟩

theorem webhook_preserves_existing_keys (now : Int) (freshKey : String)
    (st : ServerState) (req : WebhookReq)
    (hfresh : storeFind? st.apiKeys freshKey = none) (k : String) (kd : KeyData)
    (h : storeFind? st.apiKeys k = some kd) :
    storeFind? (webhookHandler now freshKey st req).1.apiKeys k = some kd := by
  cases hq : req.query.order_id with
  | none => rw [webhookHandler_no_order_id now freshKey st req hq]; exact h
  | some oid =>
      cases hfind : storeFind? st.pendingPayments oid with
      | none =>
          rw [webhookHandler_order_not_found now freshKey st req oid hq hfind]
          exact h
      | some p =>
          cases hc : confirmCond (webhookData req) p.plan.price with
          | false =>
              rw [webhookHandler_no_confirm now freshKey st req oid p hq hfind hc]
              exact h
          | true =>
              rw [webhookHandler_confirm now freshKey st req oid p hq hfind hc]
              have hne : ¬freshKey = k := by
                intro e
                rw [e] at hfresh
                rw [hfresh] at h
                exact Option.noConfusion h
              simp only [find_storeSet, if_neg hne]
              exact h

theorem paymentStatus_fst (st : ServerState) (orderId : String) :
    (paymentStatus st orderId).1 = st := by
  unfold paymentStatus
  cases storeFind? st.pendingPayments orderId with
  | none => rfl
  | some p => by_cases h : p.status = .completed ∧ truthyKey p.apiKey <;> simp [h]

theorem dispatch_keeps_existing_keys (st : ServerState) (req : Request)
    (hfresh : requestFresh st req) (k : String) (kd : KeyData)
    (h : storeFind? st.apiKeys k = some kd) :
    storeFind? (dispatch st req).1.apiKeys k = some kd := by
  cases req with
  | priceGet ty sym fetched =>
      have e : (dispatch st (.priceGet ty sym fetched)).1 = st := by
        by_cases hty : ty ≠ "crypto" ∧ ty ≠ "stock"
        · simp [dispatch, hty]
        · cases fetched <;> simp [dispatch, hty]
      rw [e]; exact h
  | alertCheck ty sym cond thr fetched =>
      have e : (dispatch st (.alertCheck ty sym cond thr fetched)).1 = st := by
        by_cases hc : ty = none ∨ sym = none ∨ cond = none ∨ thr = none
        · simp [dispatch, hc]
        · cases fetched with
          | none => simp [dispatch, hc]
          | some v =>
              by_cases hc2 : cond = some "above" ∨ cond = some "below" <;>
                simp [dispatch, hc, hc2]
      rw [e]; exact h
  | priceBatch b =>
      have e : (dispatch st (.priceBatch b)).1 = st := by cases b <;> rfl
      rw [e]; exact h
  | health => exact h
  | rootDoc => exact h
  | createOrder plan email proc orderId now =>
      have e : (dispatch st (.createOrder plan email proc orderId now)).1.apiKeys =
          st.apiKeys := by
        cases proc <;> rfl
      rw [e]; exact h
  | webhook w freshKey now =>
      exact webhook_preserves_existing_keys now freshKey st w hfresh k kd h
  | statusQuery orderId =>
      have e : (dispatch st (.statusQuery orderId)).1 = st := paymentStatus_fst st orderId
      rw [e]; exact h

theorem dispatch_status_cases (st : ServerState) (req : Request) :
    (dispatch st req).2.status = 200 ∨ (dispatch st req).2.status = 400 ∨
    (dispatch st req).2.status = 404 ∨ (dispatch st req).2.status = 500 := by
  cases req with
  | priceGet ty sym fetched =>
      by_cases hty : ty ≠ "crypto" ∧ ty ≠ "stock"
      · right; left; simp [dispatch, hty]
      · cases fetched with
        | none => right; right; left; simp [dispatch, hty]
        | some v => left; simp [dispatch, hty]
  | alertCheck ty sym cond thr fetched =>
      by_cases hc : ty = none ∨ sym = none ∨ cond = none ∨ thr = none
      · right; left; simp [dispatch, hc]
      · cases fetched with
        | none => right; right; left; simp [dispatch, hc]
        | some v =>
            by_cases hc2 : cond = some "above" ∨ cond = some "below"
            · left; simp [dispatch, hc, hc2]
            · right; left; simp [dispatch, hc, hc2]
  | priceBatch b =>
      cases b
      · exact Or.inr (Or.inl rfl)
      · exact Or.inl rfl
  | health => exact Or.inl rfl
  | rootDoc => exact Or.inl rfl
  | createOrder plan email proc orderId now =>
      cases proc with
      | success addr min => exact Or.inl rfl
      | failure => exact Or.inr (Or.inr (Or.inr rfl))
      | unreachable => exact Or.inr (Or.inr (Or.inr rfl))
  | webhook w freshKey now =>
      have e : (dispatch st (.webhook w freshKey now)).2 = okResp :=
        webhookHandler_always_ok now freshKey st w
      rw [e]; exact Or.inl rfl
  | statusQuery orderId =>
      cases hfo : storeFind? st.pendingPayments orderId with
      | none => right; right; left; simp [dispatch, paymentStatus, hfo]
      | some p =>
          left
          by_cases h2 : p.status = .completed ∧ truthyKey p.apiKey <;>
            simp [dispatch, paymentStatus, hfo, h2]

/-- C2: the validateApiKey middleware is attached to no registered route,
so request processing never changes an existing Key Store record — with
the webhook minting under a fresh random key — and no request is ever
rejected with a 401 or 429 key error. -/
theorem validation_gate_never_invoked :
    (∀ r ∈ registeredRoutes, r.middlewares = []) ∧
    ∀ (st : ServerState) (req : Request), requestFresh st req →
      (∀ k kd, storeFind? st.apiKeys k = some kd →
        storeFind? (dispatch st req).1.apiKeys k = some kd) ∧
      (dispatch st req).2.status ≠ 401 ∧ (dispatch st req).2.status ≠ 429 := by
  refine ⟨by decide, fun st req hfresh => ⟨fun k kd h =>
    dispatch_keeps_existing_keys st req hfresh k kd h, ?_, ?_⟩⟩
  · rcases dispatch_status_cases st req with h | h | h | h <;> simp [h]
  · rcases dispatch_status_cases st req with h | h | h | h <;> simp [h]

def c2Key : KeyData := ⟨"Pro", 42, none, 0, 10000⟩

def c2State : ServerState := ⟨[], [("pk_c2", c2Key)]⟩

def c2Req : Request :=
  .webhook ⟨"GET", ⟨some "missing", some "15", some "0", none⟩, emptyFields⟩ "pk_new" 5

/-- C2 witness: a concrete webhook request against a store holding one
key leaves that record intact and is not rejected with 401 or 429. -/
theorem validation_gate_never_invoked_witness :
    requestFresh c2State c2Req ∧
    storeFind? (dispatch c2State c2Req).1.apiKeys "pk_c2" = some c2Key ∧
    (dispatch c2State c2Req).2.status ≠ 401 := by
  have h := validation_gate_never_invoked.2 c2State c2Req rfl
  exact ⟨rfl, h.1 "pk_c2" c2Key rfl, h.2.1⟩

end PriceAlertApi
